import Mathlib

/-!
The SAP Alert Notification Service hook of the piper logger.

A shallow embedding of `pkg/log/ansHook.go` (`NewANSHook`, `ANSHook.Levels`,
`ANSHook.Fire`, `copyEvent`) and of the caller in `cmd/imagePushToRegistry.go`
that logs the failure of a step.

Conventions of the embedding.

* A Go string is a Lean `String`; the functions of package `strings` work on
  its list of characters.
* `logrus.Level` is an unsigned integer, here a `Nat`: panic = 0, fatal = 1,
  error = 2, warning = 3, info = 4, debug = 5, trace = 6.  A smaller number is a
  more severe level.
* A Go `map[string]interface{}` is a reference: the struct holds the address of
  the map and the bindings live in a heap, so that a write through one struct is
  seen through every struct that holds the same address.  The bindings of one
  map are an association list whose first binding of a key is the live one, and
  `m[k] = v` puts a binding in front.  A nil map is an address at which nothing
  is allocated: it reads as empty, and a write to it is a run-time panic.
* `logrus.Fields` (the data of a log record) is the list of its bindings in the
  order in which `range` visits them; the keys of a Go map are distinct, and
  for distinct keys the loop of `Fire` gives the same level and the same reads
  of the tags in every order (`rangeData_order`).
* A byte string that is handed to the JSON decoder is represented by what the
  decoder makes of it (`Bytes`); the text format of JSON is not modelled.
* Package `ans` is not part of the sources at hand.  What the hook needs of it
  is either modelled from the specification (`Event.MergeWithJSON`) or a field
  of the environment `Env` (the severity table, the service key decoder, the
  network client).
-/

namespace PiperLog

/-! ## logrus -/

/-- The type `logrus.Level`. -/
abbrev Level := Nat

/-- The constant `logrus.PanicLevel`. -/
def PanicLevel : Level := 0
/-- The constant `logrus.FatalLevel`. -/
def FatalLevel : Level := 1
/-- The constant `logrus.ErrorLevel`. -/
def ErrorLevel : Level := 2
/-- The constant `logrus.WarnLevel`. -/
def WarnLevel : Level := 3
/-- The constant `logrus.InfoLevel`. -/
def InfoLevel : Level := 4
/-- The constant `logrus.DebugLevel`. -/
def DebugLevel : Level := 5
/-- The constant `logrus.TraceLevel`. -/
def TraceLevel : Level := 6

/-- The method `logrus.Level.String`: the text form of a level. -/
def levelString (l : Level) : String :=
  match l with
  | 0 => "panic"
  | 1 => "fatal"
  | 2 => "error"
  | 3 => "warning"
  | 4 => "info"
  | 5 => "debug"
  | 6 => "trace"
  | _ => "unknown"

/-- A value of type `interface{}` as it occurs in log fields and in tags:
    `nil`, a boolean, an integer or a string. -/
inductive Value where
  | null : Value
  | bool (b : Bool) : Value
  | num (n : Int) : Value
  | str (s : String) : Value
deriving DecidableEq, Repr

/-- The bindings of a `map[string]interface{}`; the first binding of a key is
    the live one. -/
abbrev TagMap := List (String × Value)

/-- The read `m[k]` of a map, `none` when the key is absent. -/
def TagMap.get : TagMap → String → Option Value
  | [], _ => none
  | (k1, v) :: m, k => if k = k1 then some v else TagMap.get m k

/-- The function `fmt.Sprint` on the result of a map read. -/
def Sprint : Option Value → String
  | none => "<nil>"
  | some Value.null => "<nil>"
  | some (Value.bool true) => "true"
  | some (Value.bool false) => "false"
  | some (Value.num n) => toString n
  | some (Value.str s) => s

/-- The type `logrus.Entry`, as far as the hook reads it: `Time` is already the
    result of `entry.Time.Unix()`. -/
structure Entry where
  Level : Level
  Message : String
  Data : TagMap
  Time : Int
deriving Repr

/-! ## strings -/

/-- The function `unicode.IsSpace`. -/
def isSpace (c : Char) : Bool :=
  let n := c.toNat
  (9 ≤ n && n ≤ 13) || n = 32 || n = 0x85 || n = 0xA0 || n = 0x1680 ||
  (0x2000 ≤ n && n ≤ 0x200A) || n = 0x2028 || n = 0x2029 || n = 0x202F ||
  n = 0x205F || n = 0x3000

/-- The function `strings.TrimSpace`, on the characters of the string. -/
def TrimSpace (s : List Char) : List Char :=
  ((s.dropWhile isSpace).reverse.dropWhile isSpace).reverse

/-- The function `strings.HasPrefix`. -/
def startsWith (s p : String) : Bool :=
  p.data.isPrefixOf s.data

/-! ## The heap of tag maps -/

/-- The maps that have been allocated; the address of a map is its index. -/
structure Heap where
  cells : List TagMap
deriving Repr

/-- The bindings of the map at address `a`. -/
def Heap.read (hp : Heap) (a : Nat) : TagMap :=
  hp.cells.getD a []

/-- Allocation of a new map with bindings `m`: the new heap and the address. -/
def Heap.alloc (hp : Heap) (m : TagMap) : Heap × Nat :=
  (⟨hp.cells ++ [m]⟩, hp.cells.length)

/-- A map is allocated at address `a`: the map at `a` is not nil. -/
def Heap.allocated (hp : Heap) (a : Nat) : Bool :=
  a < hp.cells.length

/-- The write `m[k] = v` to the map that is allocated at address `a`. -/
def Heap.store (hp : Heap) (a : Nat) (k : String) (v : Value) : Heap :=
  ⟨hp.cells.set a ((k, v) :: hp.read a)⟩

/-- All bindings of `m` are written to the map at address `a`, the first
    binding of `m` last, so that the live bindings of `m` are live afterwards. -/
def Heap.storeAll (hp : Heap) (a : Nat) (m : TagMap) : Heap :=
  m.foldr (fun kv h => h.store a kv.1 kv.2) hp

/-! ## Package ans -/

/-- The type `ans.Resource`. -/
structure Resource where
  ResourceType : String
  ResourceName : String
deriving DecidableEq, Repr

/-- The fields of `ans.Event` that the specification lists, with the tags held
    as a `T`. -/
structure EventOf (T : Type) where
  EventType : String
  EventTimestamp : Int
  Severity : String
  Subject : String
  Body : String
  Tags : T
  Resource : Option Resource
deriving DecidableEq, Repr

/-- The Go struct `ans.Event`: `Tags` is the address of the map. -/
abbrev Event := EventOf Nat

/-- An event together with the bindings of its map: what a reader of the event
    sees, and what a JSON document of an event holds. -/
abbrev EventValue := EventOf TagMap

/-- The event `e` as a reader sees it in heap `hp`. -/
def Event.content (hp : Heap) (e : Event) : EventValue :=
  ⟨e.EventType, e.EventTimestamp, e.Severity, e.Subject, e.Body, hp.read e.Tags, e.Resource⟩

/-- A byte string, seen through the JSON decoder: no bytes at all, bytes that
    are not a JSON document of an event, or the text of a document with the
    known fields `d` and the unknown top-level keys `unknown`. -/
inductive Bytes where
  | empty : Bytes
  | garbage : Bytes
  | json (d : EventValue) (unknown : List String) : Bytes
deriving DecidableEq, Repr

/-- The length test `len(b) > 0`. -/
def Bytes.nonEmpty : Bytes → Bool
  | Bytes.empty => false
  | _ => true

/-- A string field after a merge: the template wins when it is not empty. -/
def mergeString (base template : String) : String :=
  if template.length > 0 then template else base

/-- The resource after a merge: each field of the template wins when it is
    not empty. -/
def mergeResource (base template : Option Resource) : Option Resource :=
  match template with
  | none => base
  | some t =>
    let b := base.getD ⟨"", ""⟩
    some ⟨mergeString b.ResourceType t.ResourceType, mergeString b.ResourceName t.ResourceName⟩

/-- The tags of a document are merged key by key into the map at address `a`:
    into the map itself when one is allocated there; into a new map, whose
    address is returned, when the map at `a` is nil and the document has tags;
    a nil map stays nil when the document has no tags. -/
def mergeTags (hp : Heap) (a : Nat) (m : TagMap) : Heap × Nat :=
  if hp.allocated a then (hp.storeAll a m, a)
  else if m.isEmpty then (hp, a)
  else hp.alloc m

/-- Modelled from the spec: the method `ans.Event.MergeWithJSON`, which is not
    among the sources at hand.  Section 4.1: a scalar field is overwritten only
    if the template supplies a non-empty value, the tags are merged key by key
    with the template overriding, unknown fields are ignored, and bytes that
    are not valid structured data give an error and leave the base unmodified.
    The receiver is a pointer: the result holds the heap and the event after
    the call, and the error. -/
def Event.MergeWithJSON (hp : Heap) (event : Event) (eventJSON : Bytes) :
    Heap × Event × Option String :=
  match eventJSON with
  | Bytes.json d _ =>
    ((mergeTags hp event.Tags d.Tags).1,
     ⟨mergeString event.EventType d.EventType,
      if d.EventTimestamp = 0 then event.EventTimestamp else d.EventTimestamp,
      mergeString event.Severity d.Severity,
      mergeString event.Subject d.Subject,
      mergeString event.Body d.Body,
      (mergeTags hp event.Tags d.Tags).2,
      mergeResource event.Resource d.Resource⟩,
     none)
  | _ => (hp, event, some "error unmarshalling ANS event from JSON string")

/-- The function `json.Marshal` on an event: the document of its content. -/
def Marshal (hp : Heap) (source : Event) : Except String Bytes :=
  Except.ok (Bytes.json (source.content hp) [])

/-- The type `ans.ServiceKey`. -/
structure ServiceKey where
  Url : String
  ClientId : String
  ClientSecret : String
  OauthUrl : String
deriving DecidableEq, Repr

/-- The type `xsuaa.XSUAA`, as far as the hook fills it. -/
structure XSUAA where
  OAuthURL : String
  ClientID : String
  ClientSecret : String
deriving DecidableEq, Repr

/-- The type `ans.ANS`. -/
structure ANS where
  XSUAA : XSUAA
  URL : String
deriving DecidableEq, Repr

/-- The interface `ans.Client`: the answer of `Send` to an event, and the
    answer of `CheckCorrectSetup`; `none` is the error `nil`. -/
structure Client where
  Send : EventValue → Option String
  CheckCorrectSetup : Option String

/-- The type `ans.Configuration`. -/
structure Configuration where
  ServiceKey : String
  EventTemplateFilePath : String
  EventTemplate : Bytes
deriving Repr

/-- What lies outside the sources at hand and outside the program: the decoder
    of the service key (`ans.UnmarshallServiceKeyJSON`), the file system
    (`ioutil.ReadFile`), the behaviour of an `ans.ANS` value as a client of the
    backend, and the table from which `ans.Event.SetLogLevel` takes the
    severity of a level. -/
structure Env where
  UnmarshallServiceKeyJSON : String → Except String ServiceKey
  ReadFile : String → Except String Bytes
  client : ANS → Client
  severity : Level → String

/-- Modelled from the spec: the method `ans.Event.SetLogLevel`, which is not
    among the sources at hand.  Section 4.3: the structured severity field is
    set from the level; the table itself is `env.severity`. -/
def Event.SetLogLevel (env : Env) (event : Event) (level : Level) : Event :=
  { event with Severity := env.severity level }

/-! ## Package log: the hook -/

/-- The type `ANSHook`. -/
structure ANSHook where
  client : Client
  event : Event

/-- A warning that `NewANSHook` writes to the log. -/
inductive Warning where
  | templateFileNotRead (path : String) (err : String) : Warning
  | templateNotUnmarshalled (err : String) : Warning
deriving DecidableEq, Repr

/-- What `NewANSHook` leaves behind: the hook or the error, the heap and the
    warnings written to the log. -/
structure NewANSHookResult where
  hook : Except String ANSHook
  heap : Heap
  warnings : List Warning

/-- The zero value of `ans.Event`: its map is nil, `a` being an address at
    which nothing is allocated. -/
def zeroEvent (a : Nat) : Event :=
  ⟨"", 0, "", "", "", a, none⟩

/-- The merge of the file template in `NewANSHook` (the first `if`). -/
def mergeFileTemplate (env : Env) (hp : Heap) (event : Event) (config : Configuration) :
    Heap × Event × List Warning :=
  if config.EventTemplateFilePath.length > 0 then
    match env.ReadFile config.EventTemplateFilePath with
    | Except.error err =>
      (hp, event, [Warning.templateFileNotRead config.EventTemplateFilePath err])
    | Except.ok eventTemplateString =>
      match Event.MergeWithJSON hp event eventTemplateString with
      | (hp1, event1, some err) => (hp1, event1, [Warning.templateNotUnmarshalled err])
      | (hp1, event1, none) => (hp1, event1, [])
  else (hp, event, [])

/-- The merge of the inline template in `NewANSHook` (the second `if`). -/
def mergeInlineTemplate (hp : Heap) (event : Event) (config : Configuration) :
    Heap × Event × List Warning :=
  if config.EventTemplate.nonEmpty then
    match Event.MergeWithJSON hp event config.EventTemplate with
    | (hp1, event1, some err) => (hp1, event1, [Warning.templateNotUnmarshalled err])
    | (hp1, event1, none) => (hp1, event1, [])
  else (hp, event, [])

/-- The function `NewANSHook`. -/
def NewANSHook (env : Env) (hp : Heap) (config : Configuration) (correlationID : String) :
    NewANSHookResult :=
  match env.UnmarshallServiceKeyJSON config.ServiceKey with
  | Except.error err =>
    ⟨Except.error
      ("cannot initialize SAP Alert Notification Service due to faulty serviceKey json: " ++ err),
     hp, []⟩
  | Except.ok ansServiceKey =>
    let (hp0, tags) := hp.alloc
      [("ans:correlationId", Value.str correlationID), ("ans:sourceEventId", Value.str correlationID)]
    let event0 : Event := ⟨"Piper", 0, "", "", "", tags, some ⟨"Pipeline", "Pipeline"⟩⟩
    let (hp1, event1, w1) := mergeFileTemplate env hp0 event0 config
    let (hp2, event2, w2) := mergeInlineTemplate hp1 event1 config
    let x : XSUAA := ⟨ansServiceKey.OauthUrl, ansServiceKey.ClientId, ansServiceKey.ClientSecret⟩
    let h : ANSHook := ⟨env.client ⟨x, ansServiceKey.Url⟩, event2⟩
    match h.client.CheckCorrectSetup with
    | some err => ⟨Except.error err, hp2, w1 ++ w2⟩
    | none => ⟨Except.ok h, hp2, w1 ++ w2⟩

/-- The method `ANSHook.Levels`. -/
def ANSHook.Levels (_ansHook : ANSHook) : List Level :=
  [InfoLevel, WarnLevel, ErrorLevel, PanicLevel, FatalLevel]

/-- The function `copyEvent`: the destination starts as the zero event, whose
    map is nil, and receives the JSON document of the source. -/
def copyEvent (hp : Heap) (source : Event) : Heap × Event × Option String :=
  let destination := zeroEvent hp.cells.length
  match Marshal hp source with
  | Except.error err => (hp, destination, some err)
  | Except.ok sourceJSON => Event.MergeWithJSON hp destination sourceJSON

/-- The loop `for k, v := range entry.Data` of `Fire` for a map that is
    allocated at address `a`, the address of the tags of the new event: the
    level and the heap after it. -/
def rangeData (a : Nat) (logLevel : Level) (hp : Heap) (data : TagMap) : Level × Heap :=
  data.foldl
    (fun st kv => (if kv.1 = "error" then ErrorLevel else st.1, st.2.store a kv.1 kv.2))
    (logLevel, hp)

/-- The text of the run-time panic of a write to a nil map. -/
def nilMapPanic : String := "assignment to entry in nil map"

/-- What one call of `Fire` leaves behind: the returned error (`none` is
    `nil`), the events handed to `client.Send` in order, the heap, and the
    run-time panic that ended the call, if one did (`Fire` returns nothing
    then, and `err` is `none`). -/
structure FireResult where
  err : Option String
  sent : List EventValue
  heap : Heap
  runtimePanic : Option String

/-- The method `ANSHook.Fire`.  The write `event.Tags[k] = v` of the loop
    panics in the first round when the map of the new event is nil; nothing in
    the loop allocates a map, so the loop panics exactly when the record has
    data and the map is nil. -/
def ANSHook.Fire (env : Env) (ansHook : ANSHook) (hp : Heap) (entry : Entry) : FireResult :=
  if (TrimSpace entry.Message.data).length = 0 then ⟨none, [], hp, none⟩
  else
    match copyEvent hp ansHook.event with
    | (hp1, _, some err) => ⟨some err, [], hp1, none⟩
    | (hp1, event, none) =>
      let logLevel := entry.Level
      let logLevel := if startsWith entry.Message "fatal error" then FatalLevel else logLevel
      if !entry.Data.isEmpty && !hp1.allocated event.Tags then ⟨none, [], hp1, some nilMapPanic⟩
      else
        let (logLevel, hp2) := rangeData event.Tags logLevel hp1 entry.Data
        if logLevel > 3 then ⟨none, [], hp2, none⟩
        else
          let event := { event with EventTimestamp := entry.Time }
          let event :=
            if event.Subject = "" then
              { event with Subject := Sprint (TagMap.get entry.Data "stepName") }
            else event
          let event := { event with Body := entry.Message }
          let event := Event.SetLogLevel env event logLevel
          if !hp2.allocated event.Tags then ⟨none, [], hp2, some nilMapPanic⟩
          else
            let hp3 := hp2.store event.Tags "logLevel" (Value.str (levelString logLevel))
            match ansHook.client.Send (event.content hp3) with
            | some err => ⟨some err, [event.content hp3], hp3, none⟩
            | none => ⟨none, [event.content hp3], hp3, none⟩

/-! ## Package cmd: the record of a failed step -/

/-- The record that `imagePushToRegistry` logs when the step fails,
    `log.Entry().WithError(err).Fatal("step execution failed")`: `fields` are
    the fields of `log.Entry()`, `err` is the text of the error. -/
def stepFailedEntry (fields : TagMap) (err : String) (time : Int) : Entry :=
  ⟨FatalLevel, "step execution failed", ("error", Value.str err) :: fields, time⟩

/-! ## A test double -/

/-- A client that accepts every event. -/
def okClient : Client := ⟨fun _ => none, none⟩

/-- A client whose backend refuses every event. -/
def failingClient : Client := ⟨fun _ => some "503 Service Unavailable", none⟩

/-- An environment with a service key decoder that accepts every key, no
    files, a backend that accepts every event and a severity table with the
    names `FATAL`, `ERROR`, `WARNING` and `INFO`. -/
def testEnv : Env where
  UnmarshallServiceKeyJSON := fun _ => Except.ok ⟨"https://ans", "id", "secret", "https://oauth"⟩
  ReadFile := fun _ => Except.error "no such file or directory"
  client := fun _ => okClient
  severity := fun l =>
    match l with
    | 0 => "FATAL"
    | 1 => "FATAL"
    | 2 => "ERROR"
    | 3 => "WARNING"
    | _ => "INFO"

/-- The empty heap. -/
def emptyHeap : Heap := ⟨[]⟩

/-- The prototype that `NewANSHook` builds for correlation id `abc-123` without
    templates, its map at address 0. -/
def demoHook : ANSHook :=
  ⟨okClient, ⟨"Piper", 0, "", "", "", 0, some ⟨"Pipeline", "Pipeline"⟩⟩⟩

/-- The heap that holds the map of `demoHook`. -/
def demoHeap : Heap :=
  ⟨[[("ans:correlationId", Value.str "abc-123"), ("ans:sourceEventId", Value.str "abc-123")]]⟩

/-- A configuration with a service key and no template. -/
def plainConfig : Configuration := ⟨"service-key", "", Bytes.empty⟩

/-- The tag `logLevel`, the severity, the subject and the body of each event
    of a list of sent events. -/
def summary (sent : List EventValue) : List (Option Value × String × String × String) :=
  sent.map (fun d => (TagMap.get d.Tags "logLevel", d.Severity, d.Subject, d.Body))

/-! ## Closed forms used by the proofs -/

/-- The value of the variable `logLevel` of `Fire` after the prefix test and
    the loop over the data of the record. -/
def effectiveLevel (entry : Entry) : Level :=
  (rangeData 0 (if startsWith entry.Message "fatal error" then FatalLevel else entry.Level)
    emptyHeap entry.Data).1

/-- The record has a field with key `error`. -/
def hasErrorField (entry : Entry) : Bool :=
  entry.Data.any (fun kv => kv.1 = "error")

/-- The message of the record is blank: nothing is left of it after trimming. -/
def blankMessage (entry : Entry) : Bool :=
  (TrimSpace entry.Message.data).length = 0

/-- The event that `Fire` hands to `client.Send` for a record that passes the
    filters, `proto` being the content of the prototype. -/
def sentEvent (env : Env) (proto : EventValue) (entry : Entry) : EventValue :=
  ⟨proto.EventType, entry.Time, env.severity (effectiveLevel entry),
   if proto.Subject = "" then Sprint (TagMap.get entry.Data "stepName") else proto.Subject,
   entry.Message,
   ("logLevel", Value.str (levelString (effectiveLevel entry))) ::
     (entry.Data.reverse ++ proto.Tags),
   proto.Resource⟩

/-- The configuration without one of its two templates: without the file
    template if `file` is true, without the inline template otherwise. -/
def dropTemplate (file : Bool) (config : Configuration) : Configuration :=
  if file then ⟨config.ServiceKey, "", config.EventTemplate⟩
  else ⟨config.ServiceKey, config.EventTemplateFilePath, Bytes.empty⟩

/-- The bytes fail to merge: `MergeWithJSON` answers them with an error,
    whatever the event it is called on. -/
def mergeFails (b : Bytes) : Prop :=
  ∀ (hp : Heap) (event : Event), (Event.MergeWithJSON hp event b).2.2 ≠ none

/-- One of the two templates of the configuration is given and fails to merge:
    the file template (the file is read, its content fails) if `file` is true,
    the inline template otherwise. -/
def templateFails (env : Env) (file : Bool) (config : Configuration) : Prop :=
  if file then
    config.EventTemplateFilePath.length > 0 ∧
      ∃ b, env.ReadFile config.EventTemplateFilePath = Except.ok b ∧ mergeFails b
  else config.EventTemplate.nonEmpty = true ∧ mergeFails config.EventTemplate

/-- The client that `NewANSHook` builds from a service key. -/
def clientOf (env : Env) (key : ServiceKey) : Client :=
  env.client ⟨⟨key.OauthUrl, key.ClientId, key.ClientSecret⟩, key.Url⟩

/-- An environment like `testEnv` in which the file `template.json` holds
    bytes that are not a JSON document. -/
def garbageFileEnv : Env :=
  { testEnv with
    ReadFile := fun path =>
      if path = "template.json" then Except.ok Bytes.garbage
      else Except.error "no such file or directory" }

/-! ## Lemmas on the heap -/

theorem Heap.read_eq (hp : Heap) (a : Nat) : hp.read a = (hp.cells[a]?).getD [] := by
  simp [Heap.read, List.getD_eq_getElem?_getD]

theorem Heap.read_of_lt (cs ext : List TagMap) (a : Nat) (h : a < cs.length) :
    Heap.read ⟨cs ++ ext⟩ a = Heap.read ⟨cs⟩ a := by
  simp [Heap.read_eq, List.getElem?_append_left h]

theorem Heap.read_fresh (cs : List TagMap) (m : TagMap) :
    Heap.read ⟨cs ++ [m]⟩ cs.length = m := by
  simp [Heap.read_eq]

theorem Heap.store_fresh (cs : List TagMap) (m : TagMap) (k : String) (v : Value) :
    Heap.store ⟨cs ++ [m]⟩ cs.length k v = ⟨cs ++ [(k, v) :: m]⟩ := by
  simp [Heap.store, Heap.read_fresh]

theorem Heap.storeAll_fresh (cs : List TagMap) (m d : TagMap) :
    Heap.storeAll ⟨cs ++ [m]⟩ cs.length d = ⟨cs ++ [d ++ m]⟩ := by
  induction d with
  | nil => simp [Heap.storeAll]
  | cons kv d ih =>
    have h : Heap.storeAll ⟨cs ++ [m]⟩ cs.length (kv :: d)
        = Heap.store (Heap.storeAll ⟨cs ++ [m]⟩ cs.length d) cs.length kv.1 kv.2 := rfl
    rw [h, ih, Heap.store_fresh]
    simp

theorem rangeData_cons (a : Nat) (l : Level) (hp : Heap) (kv : String × Value)
    (data : TagMap) :
    rangeData a l hp (kv :: data)
      = rangeData a (if kv.1 = "error" then ErrorLevel else l) (hp.store a kv.1 kv.2) data :=
  rfl

theorem rangeData_level (a : Nat) (l : Level) (hp : Heap) (data : TagMap) :
    (rangeData a l hp data).1
      = if data.any (fun kv => kv.1 = "error") then ErrorLevel else l := by
  induction data generalizing l hp with
  | nil => simp [rangeData]
  | cons kv data ih =>
    rw [rangeData_cons, ih, List.any_cons]
    by_cases hk : kv.1 = "error"
    · simp [hk]
    · have hd : decide (kv.1 = "error") = false := by simp [hk]
      rw [hd, if_neg hk]
      rfl

theorem rangeData_fresh (cs : List TagMap) (data m : TagMap) (l : Level) :
    (rangeData cs.length l ⟨cs ++ [m]⟩ data).2 = ⟨cs ++ [data.reverse ++ m]⟩ := by
  induction data generalizing l m with
  | nil => simp [rangeData]
  | cons kv data ih =>
    rw [rangeData_cons, Heap.store_fresh, ih]
    simp

theorem effectiveLevel_eq (entry : Entry) :
    effectiveLevel entry
      = if hasErrorField entry then ErrorLevel
        else if startsWith entry.Message "fatal error" then FatalLevel else entry.Level := by
  simp [effectiveLevel, hasErrorField, rangeData_level]

theorem mergeString_empty (x : String) : mergeString "" x = x := by
  unfold mergeString
  split
  · rfl
  · rename_i h
    have h0 : x.data = [] := by
      have : x.length = 0 := by omega
      exact List.length_eq_zero.mp this
    exact String.ext (by simp [h0])

theorem mergeResource_none (r : Option Resource) : mergeResource none r = r := by
  cases r with
  | none => rfl
  | some t => simp [mergeResource, mergeString_empty]

theorem Heap.allocated_fresh (cs : List TagMap) (m : TagMap) :
    Heap.allocated ⟨cs ++ [m]⟩ cs.length = true := by
  simp [Heap.allocated]

theorem Heap.allocated_next (hp : Heap) : hp.allocated hp.cells.length = false := by
  simp [Heap.allocated]

theorem copyEvent_eq (hp : Heap) (source : Event) :
    copyEvent hp source
      = (if (hp.read source.Tags).isEmpty then hp else ⟨hp.cells ++ [hp.read source.Tags]⟩,
         { source with Tags := hp.cells.length }, none) := by
  simp only [copyEvent, Marshal, Event.MergeWithJSON, zeroEvent, Event.content, mergeTags,
    Heap.allocated_next, mergeString_empty, mergeResource_none, Heap.alloc]
  cases source with
  | mk et ts sv sj bd tg rs =>
    by_cases hm : (Heap.read hp tg).isEmpty = true
    · simp [hm]
      intro h
      exact h.symm
    · simp [hm]
      intro h
      exact h.symm

theorem effectiveLevel_nil (entry : Entry) (h : entry.Data.isEmpty = true) :
    effectiveLevel entry
      = if startsWith entry.Message "fatal error" then FatalLevel else entry.Level := by
  have h0 : entry.Data = [] := List.isEmpty_iff.mp h
  simp [effectiveLevel, rangeData, h0]

theorem Fire_eq (env : Env) (ansHook : ANSHook) (hp : Heap) (entry : Entry) :
    ansHook.Fire env hp entry =
      if blankMessage entry then ⟨none, [], hp, none⟩
      else if (hp.read ansHook.event.Tags).isEmpty then
        (if entry.Data.isEmpty && decide (effectiveLevel entry > 3) then ⟨none, [], hp, none⟩
         else ⟨none, [], hp, some nilMapPanic⟩)
      else if effectiveLevel entry > 3 then
        ⟨none, [], ⟨hp.cells ++ [entry.Data.reverse ++ hp.read ansHook.event.Tags]⟩, none⟩
      else
        ⟨ansHook.client.Send (sentEvent env (ansHook.event.content hp) entry),
         [sentEvent env (ansHook.event.content hp) entry],
         ⟨hp.cells ++ [("logLevel", Value.str (levelString (effectiveLevel entry))) ::
            (entry.Data.reverse ++ hp.read ansHook.event.Tags)]⟩, none⟩ := by
  have hr : ∀ l : Level,
      rangeData hp.cells.length l ⟨hp.cells ++ [hp.read ansHook.event.Tags]⟩ entry.Data
        = ((rangeData 0 l emptyHeap entry.Data).1,
           ⟨hp.cells ++ [entry.Data.reverse ++ hp.read ansHook.event.Tags]⟩) := by
    intro l
    apply Prod.ext
    · simp [rangeData_level]
    · exact rangeData_fresh _ _ _ _
  unfold ANSHook.Fire
  by_cases hb : (TrimSpace entry.Message.data).length = 0
  · simp [blankMessage, hb]
  · simp only [blankMessage, hb, copyEvent_eq, decide_False, if_false]
    by_cases hm : (hp.read ansHook.event.Tags).isEmpty = true
    · simp only [hm, if_true, Heap.allocated_next, Bool.not_false, Bool.and_true]
      by_cases hd : entry.Data.isEmpty = true
      · have hd0 : entry.Data = [] := List.isEmpty_iff.mp hd
        have hl := effectiveLevel_nil entry hd
        simp only [hd, Bool.not_true, if_false, Bool.true_and, hd0, rangeData, List.foldl_nil]
        rw [hl]
        by_cases hgt :
            (if startsWith entry.Message "fatal error" = true then FatalLevel else entry.Level) > 3
        · simp [hgt]
        · by_cases hs : ansHook.event.Subject = ""
          · simp [hgt, hs, Event.SetLogLevel, Heap.allocated_next]
          · simp [hgt, hs, Event.SetLogLevel, Heap.allocated_next]
      · simp [hd]
    · have hm2 : (hp.read ansHook.event.Tags).isEmpty = false := by simpa using hm
      simp only [hm2, Bool.false_eq_true, if_false, hr, Heap.allocated_fresh, Bool.not_true,
        Bool.and_false]
      change (if effectiveLevel entry > 3 then _ else _) = _
      by_cases hl : effectiveLevel entry > 3
      · simp [hl]
      · simp only [hl, if_false, Event.SetLogLevel, Event.content, sentEvent]
        unfold effectiveLevel
        by_cases hs : ansHook.event.Subject = ""
        · simp only [hs, if_true, Heap.store_fresh, Heap.read_fresh, Heap.allocated_fresh,
            Bool.not_true, Bool.false_eq_true, if_false]
          split <;> simp_all
        · simp only [hs, if_false, Heap.store_fresh, Heap.read_fresh, Heap.allocated_fresh,
            Bool.not_true, Bool.false_eq_true]
          split <;> simp_all

/-! ## Lemmas on strings and maps -/

theorem TrimSpace_eq_nil (s : List Char) :
    (TrimSpace s).length = 0 ↔ ∀ c ∈ s, isSpace c = true := by
  unfold TrimSpace
  rw [List.length_eq_zero, List.reverse_eq_nil_iff, List.dropWhile_eq_nil_iff]
  constructor
  · intro h
    by_contra hne
    have hd : s.dropWhile isSpace ≠ [] := by
      intro h0
      exact hne (List.dropWhile_eq_nil_iff.mp h0)
    have hhead := List.head_dropWhile_not isSpace s hd
    have hmem : (s.dropWhile isSpace).head hd ∈ (s.dropWhile isSpace).reverse :=
      List.mem_reverse.mpr (List.head_mem hd)
    rw [h _ hmem] at hhead
    exact absurd hhead (by simp)
  · intro h x hx
    have hx1 : x ∈ s.dropWhile isSpace := List.mem_reverse.mp hx
    exact h x ((List.dropWhile_sublist isSpace).subset hx1)

theorem blankMessage_iff (entry : Entry) :
    blankMessage entry = true ↔ ∀ c ∈ entry.Message.data, isSpace c = true := by
  rw [← TrimSpace_eq_nil]
  simp [blankMessage]

theorem blankMessage_false (entry : Entry)
    (h : ∃ c ∈ entry.Message.data, isSpace c = false) : blankMessage entry = false := by
  cases hb : blankMessage entry with
  | false => rfl
  | true =>
    obtain ⟨c, hc, hs⟩ := h
    rw [(blankMessage_iff entry).mp hb c hc] at hs
    exact absurd hs (by simp)

theorem hasErrorField_of_mem (entry : Entry) (h : ∃ v, ("error", v) ∈ entry.Data) :
    hasErrorField entry = true := by
  obtain ⟨v, hv⟩ := h
  simp only [hasErrorField, List.any_eq_true]
  exact ⟨("error", v), hv, by simp⟩

theorem hasErrorField_of_get (entry : Entry) (h : TagMap.get entry.Data "error" = none) :
    hasErrorField entry = false := by
  cases entry with
  | mk lvl msg data time =>
    simp only [hasErrorField] at *
    induction data with
    | nil => rfl
    | cons kv data ih =>
      obtain ⟨k, v⟩ := kv
      simp only [TagMap.get] at h
      by_cases hk : "error" = k
      · simp [hk] at h
      · simp only [hk, if_false] at h
        have hk2 : ¬ k = "error" := fun e => hk e.symm
        simp [List.any_cons, hk2, ih h]

theorem TagMap.get_head (k : String) (v : Value) (m : TagMap) :
    TagMap.get ((k, v) :: m) k = some v := by
  simp [TagMap.get]

theorem Fire_sent (env : Env) (ansHook : ANSHook) (hp : Heap) (entry : Entry) :
    (ansHook.Fire env hp entry).sent =
      if blankMessage entry = true ∨ effectiveLevel entry > 3 ∨ hp.read ansHook.event.Tags = []
      then []
      else [sentEvent env (ansHook.event.content hp) entry] := by
  rw [Fire_eq]
  by_cases hb : blankMessage entry = true
  · simp [hb]
  · by_cases hm : hp.read ansHook.event.Tags = []
    · simp only [hb, hm, List.isEmpty_nil, if_true, or_true, Bool.false_eq_true, if_false]
      split <;> rfl
    · have hm2 : (hp.read ansHook.event.Tags).isEmpty = false := by
        cases hc : hp.read ansHook.event.Tags with
        | nil => exact absurd hc hm
        | cons x xs => rfl
      by_cases hl : effectiveLevel entry > 3
      · simp [hb, hl, hm2]
      · simp [hb, hl, hm, hm2]

theorem Fire_err (env : Env) (ansHook : ANSHook) (hp : Heap) (entry : Entry) :
    (ansHook.Fire env hp entry).err =
      if blankMessage entry = true ∨ effectiveLevel entry > 3 ∨ hp.read ansHook.event.Tags = []
      then none
      else ansHook.client.Send (sentEvent env (ansHook.event.content hp) entry) := by
  rw [Fire_eq]
  by_cases hb : blankMessage entry = true
  · simp [hb]
  · by_cases hm : hp.read ansHook.event.Tags = []
    · simp only [hb, hm, List.isEmpty_nil, if_true, or_true, Bool.false_eq_true, if_false]
      split <;> rfl
    · have hm2 : (hp.read ansHook.event.Tags).isEmpty = false := by
        cases hc : hp.read ansHook.event.Tags with
        | nil => exact absurd hc hm
        | cons x xs => rfl
      by_cases hl : effectiveLevel entry > 3
      · simp [hb, hl, hm2]
      · simp [hb, hl, hm, hm2]

theorem Fire_heap (env : Env) (ansHook : ANSHook) (hp : Heap) (entry : Entry) :
    ∃ ext, (ansHook.Fire env hp entry).heap = ⟨hp.cells ++ ext⟩ := by
  rw [Fire_eq]
  by_cases hb : blankMessage entry = true
  · exact ⟨[], by simp [hb]⟩
  · by_cases hm : (hp.read ansHook.event.Tags).isEmpty = true
    · refine ⟨[], ?_⟩
      simp only [hb, hm, if_true, if_false, Bool.false_eq_true]
      split <;> simp
    · by_cases hl : effectiveLevel entry > 3
      · exact ⟨_, by simp only [hb, hm, hl, if_true, if_false]; rfl⟩
      · exact ⟨_, by simp only [hb, hm, hl, if_false]; rfl⟩

/-- A call of `Fire` on a hook whose prototype has a tag ends without a
    run-time panic. -/
theorem Fire_runtimePanic (env : Env) (ansHook : ANSHook) (hp : Heap) (entry : Entry)
    (htags : hp.read ansHook.event.Tags ≠ []) :
    (ansHook.Fire env hp entry).runtimePanic = none := by
  have hm2 : (hp.read ansHook.event.Tags).isEmpty = false := by
    cases hc : hp.read ansHook.event.Tags with
    | nil => exact absurd hc htags
    | cons x xs => rfl
  rw [Fire_eq]
  by_cases hb : blankMessage entry = true
  · simp [hb]
  · by_cases hl : effectiveLevel entry > 3
    · simp [hb, hl, hm2]
    · simp [hb, hl, hm2]

theorem Fire_runtimePanic_eq (env : Env) (ansHook : ANSHook) (hp : Heap) (entry : Entry) :
    (ansHook.Fire env hp entry).runtimePanic =
      if blankMessage entry = true then none
      else if (hp.read ansHook.event.Tags).isEmpty = true then
        (if (entry.Data.isEmpty && decide (effectiveLevel entry > 3)) = true then none
         else some nilMapPanic)
      else none := by
  rw [Fire_eq]
  by_cases hb : blankMessage entry = true
  · simp [hb]
  · by_cases hm : (hp.read ansHook.event.Tags).isEmpty = true
    · simp only [hb, hm, if_true, if_false, Bool.false_eq_true]
      split <;> rfl
    · by_cases hl : effectiveLevel entry > 3
      · simp [hb, hm, hl]
      · simp [hb, hm, hl]

theorem Fire_sent_mem (env : Env) (ansHook : ANSHook) (hp : Heap) (entry : Entry)
    (d : EventValue) (hd : d ∈ (ansHook.Fire env hp entry).sent) :
    blankMessage entry = false ∧ ¬ effectiveLevel entry > 3 ∧
    hp.read ansHook.event.Tags ≠ [] ∧ d = sentEvent env (ansHook.event.content hp) entry := by
  rw [Fire_sent] at hd
  by_cases hcond :
      blankMessage entry = true ∨ effectiveLevel entry > 3 ∨ hp.read ansHook.event.Tags = []
  · simp [hcond] at hd
  · rw [if_neg hcond] at hd
    refine ⟨?_, fun h => hcond (Or.inr (Or.inl h)), fun h => hcond (Or.inr (Or.inr h)),
      by simpa using hd⟩
    cases hb : blankMessage entry with
    | false => rfl
    | true => exact absurd (Or.inl hb) hcond

theorem Fire_runtimePanic_of_sent (env : Env) (ansHook : ANSHook) (hp : Heap) (entry : Entry)
    (d : EventValue) (hd : d ∈ (ansHook.Fire env hp entry).sent) :
    (ansHook.Fire env hp entry).runtimePanic = none := by
  rw [Fire_sent] at hd
  by_cases hcond :
      blankMessage entry = true ∨ effectiveLevel entry > 3 ∨ hp.read ansHook.event.Tags = []
  · simp [hcond] at hd
  · have htags : hp.read ansHook.event.Tags ≠ [] := fun h => hcond (Or.inr (Or.inr h))
    exact Fire_runtimePanic env ansHook hp entry htags

/-! ## The severity filter -/

/-- A record whose message begins with `fatal error` and that has no field
    `error` is sent with the level fatal, whatever its own level. -/
theorem Fire_fatal_prefix_without_error_field (env : Env) (ansHook : ANSHook) (hp : Heap)
    (entry : Entry) (htags : hp.read ansHook.event.Tags ≠ [])
    (hpre : startsWith entry.Message "fatal error" = true)
    (hnoerr : TagMap.get entry.Data "error" = none)
    (hmsg : ∃ c ∈ entry.Message.data, isSpace c = false) :
    ∃ d, (ansHook.Fire env hp entry).sent = [d] ∧
      TagMap.get d.Tags "logLevel" = some (Value.str "fatal") ∧
      d.Severity = env.severity FatalLevel := by
  have hb := blankMessage_false entry hmsg
  have hl : effectiveLevel entry = FatalLevel := by
    rw [effectiveLevel_eq, hasErrorField_of_get entry hnoerr, hpre]
    rfl
  refine ⟨sentEvent env (ansHook.event.content hp) entry, ?_, ?_, ?_⟩
  · rw [Fire_sent, hb, hl]
    simp [FatalLevel, htags]
  · simp only [sentEvent, hl, TagMap.get_head]
    rfl
  · simp only [sentEvent, hl]

/-- C1, evaluated on the code: an info-level record whose message begins with
    `fatal error` and that carries a field `error` is sent with the tag
    `logLevel` equal to `error` and the severity of the error level, not with
    those of the fatal level: the assignment in the loop over the data
    replaces the level that the prefix test has set. -/
theorem Fire_fatal_prefix_with_error_field :
    ∃ h, (NewANSHook testEnv emptyHeap plainConfig "abc-123").hook = Except.ok h ∧
      summary (h.Fire testEnv (NewANSHook testEnv emptyHeap plainConfig "abc-123").heap
        ⟨InfoLevel, "fatal error: all goroutines are asleep",
         [("error", Value.str "exit status 2")], 0⟩).sent
        = [(some (Value.str "error"), "ERROR", "<nil>",
            "fatal error: all goroutines are asleep")]
      ∧ testEnv.severity FatalLevel = "FATAL" :=
  ⟨_, rfl, by decide, rfl⟩

/-- A hook whose prototype has no tags: the copy of the prototype has a nil
    map, and the first write of a tag ends the call in a run-time panic, in the
    loop over the data of the record or, for a record without data, at the
    write of `logLevel`; nothing is sent.  Below the threshold a record
    without data returns `nil`. -/
theorem Fire_without_tags :
    ((⟨okClient, zeroEvent 0⟩ : ANSHook).Fire testEnv emptyHeap
      ⟨ErrorLevel, "push failed", [("error", Value.str "EOF")], 0⟩).runtimePanic
      = some nilMapPanic ∧
    ((⟨okClient, zeroEvent 0⟩ : ANSHook).Fire testEnv emptyHeap
      ⟨ErrorLevel, "push failed", [("error", Value.str "EOF")], 0⟩).sent = [] ∧
    ((⟨okClient, zeroEvent 0⟩ : ANSHook).Fire testEnv emptyHeap
      ⟨WarnLevel, "disk low", [], 0⟩).runtimePanic = some nilMapPanic ∧
    ((⟨okClient, zeroEvent 0⟩ : ANSHook).Fire testEnv emptyHeap
      ⟨WarnLevel, "disk low", [], 0⟩).sent = [] ∧
    ((⟨okClient, zeroEvent 0⟩ : ANSHook).Fire testEnv emptyHeap
      ⟨InfoLevel, "pulling image", [], 0⟩).runtimePanic = none ∧
    ((⟨okClient, zeroEvent 0⟩ : ANSHook).Fire testEnv emptyHeap
      ⟨InfoLevel, "pulling image", [("stepName", Value.str "build")], 0⟩).runtimePanic
      = some nilMapPanic :=
  ⟨by decide, by decide, by decide, by decide, by decide, by decide⟩

/-- C2: a record with a message that is not blank and with a field `error` is
    handed to `client.Send` exactly once, at every level of the record, and the
    level of the sent event (its tag `logLevel` and its severity) is at least
    as severe as error; the call ends without a run-time panic.  The prototype
    of the hook has a tag, as that of every hook that `NewANSHook` returns
    (`NewANSHook_has_tags`). -/
theorem Fire_error_field_is_delivered (env : Env) (ansHook : ANSHook) (hp : Heap)
    (entry : Entry) (htags : hp.read ansHook.event.Tags ≠ [])
    (hmsg : ∃ c ∈ entry.Message.data, isSpace c = false)
    (herr : ∃ v, ("error", v) ∈ entry.Data) :
    effectiveLevel entry ≤ ErrorLevel ∧
    (ansHook.Fire env hp entry).runtimePanic = none ∧
    ∃ d, (ansHook.Fire env hp entry).sent = [d] ∧
      TagMap.get d.Tags "logLevel" = some (Value.str (levelString (effectiveLevel entry))) ∧
      d.Severity = env.severity (effectiveLevel entry) := by
  have hb := blankMessage_false entry hmsg
  have hl : effectiveLevel entry = ErrorLevel := by
    rw [effectiveLevel_eq, hasErrorField_of_mem entry herr]
    rfl
  refine ⟨by rw [hl], Fire_runtimePanic env ansHook hp entry htags,
    sentEvent env (ansHook.event.content hp) entry, ?_, ?_, ?_⟩
  · rw [Fire_sent, hb, hl]
    simp [ErrorLevel, htags]
  · simp only [sentEvent, TagMap.get_head]
  · simp only [sentEvent]

/-- The theorem of C2 at a trace-level record with a field `error`. -/
theorem Fire_error_field_is_delivered_witness :
    demoHeap.read demoHook.event.Tags ≠ [] ∧
    (∃ c ∈ (⟨TraceLevel, "copy failed", [("error", Value.str "EOF")], 0⟩ : Entry).Message.data,
      isSpace c = false) ∧
    (∃ v, ("error", v) ∈ (⟨TraceLevel, "copy failed", [("error", Value.str "EOF")], 0⟩ : Entry).Data) ∧
    effectiveLevel ⟨TraceLevel, "copy failed", [("error", Value.str "EOF")], 0⟩ ≤ ErrorLevel ∧
    (demoHook.Fire testEnv demoHeap
      ⟨TraceLevel, "copy failed", [("error", Value.str "EOF")], 0⟩).runtimePanic = none ∧
    ∃ d, (demoHook.Fire testEnv demoHeap
        ⟨TraceLevel, "copy failed", [("error", Value.str "EOF")], 0⟩).sent = [d] ∧
      TagMap.get d.Tags "logLevel" = some (Value.str (levelString
        (effectiveLevel ⟨TraceLevel, "copy failed", [("error", Value.str "EOF")], 0⟩))) ∧
      d.Severity = testEnv.severity
        (effectiveLevel ⟨TraceLevel, "copy failed", [("error", Value.str "EOF")], 0⟩) :=
  ⟨by decide, ⟨'c', by decide, by decide⟩, ⟨Value.str "EOF", by decide⟩,
   Fire_error_field_is_delivered testEnv demoHook demoHeap
     ⟨TraceLevel, "copy failed", [("error", Value.str "EOF")], 0⟩
     (by decide) ⟨'c', by decide, by decide⟩ ⟨Value.str "EOF", by decide⟩⟩

/-- C3: a record at info, debug or trace level without a field `error` and
    without the prefix `fatal error` makes `Fire` return `nil` without a call
    of `client.Send`; a warning-level record with a message that is not blank
    is handed to `client.Send`; neither call ends in a run-time panic.  The
    prototype of the hook has a tag, as that of every hook that `NewANSHook`
    returns (`NewANSHook_has_tags`). -/
theorem Fire_threshold (env : Env) (ansHook : ANSHook) (hp : Heap) (low warn : Entry)
    (htags : hp.read ansHook.event.Tags ≠ [])
    (hlevel : low.Level = InfoLevel ∨ low.Level = DebugLevel ∨ low.Level = TraceLevel)
    (hnoerr : TagMap.get low.Data "error" = none)
    (hpre : startsWith low.Message "fatal error" = false)
    (hwarn : warn.Level = WarnLevel)
    (hmsg : ∃ c ∈ warn.Message.data, isSpace c = false) :
    (ansHook.Fire env hp low).runtimePanic = none ∧
    (ansHook.Fire env hp low).err = none ∧ (ansHook.Fire env hp low).sent = [] ∧
    (ansHook.Fire env hp warn).runtimePanic = none ∧
    ∃ d, (ansHook.Fire env hp warn).sent = [d] ∧ d.Body = warn.Message := by
  have hlow : effectiveLevel low > 3 := by
    rw [effectiveLevel_eq, hasErrorField_of_get low hnoerr, hpre]
    rcases hlevel with h | h | h <;> rw [h] <;> decide
  have hw : ¬ effectiveLevel warn > 3 := by
    rw [effectiveLevel_eq, hwarn]
    cases hasErrorField warn <;> cases startsWith warn.Message "fatal error" <;> decide
  have hb := blankMessage_false warn hmsg
  refine ⟨Fire_runtimePanic env ansHook hp low htags, ?_, ?_,
    Fire_runtimePanic env ansHook hp warn htags,
    sentEvent env (ansHook.event.content hp) warn, ?_, rfl⟩
  · rw [Fire_err]
    simp [hlow]
  · rw [Fire_sent]
    simp [hlow]
  · rw [Fire_sent, hb]
    simp [hw, htags]

/-- The theorem of C3 at a debug-level record and at a warning-level record. -/
theorem Fire_threshold_witness :
    demoHeap.read demoHook.event.Tags ≠ [] ∧
    ((⟨DebugLevel, "pulling image", [("stepName", Value.str "build")], 0⟩ : Entry).Level = InfoLevel
      ∨ (⟨DebugLevel, "pulling image", [("stepName", Value.str "build")], 0⟩ : Entry).Level = DebugLevel
      ∨ (⟨DebugLevel, "pulling image", [("stepName", Value.str "build")], 0⟩ : Entry).Level = TraceLevel) ∧
    TagMap.get [("stepName", Value.str "build")] "error" = none ∧
    startsWith "pulling image" "fatal error" = false ∧
    (⟨WarnLevel, "disk low", [], 0⟩ : Entry).Level = WarnLevel ∧
    (∃ c ∈ "disk low".data, isSpace c = false) ∧
    (demoHook.Fire testEnv demoHeap
      ⟨DebugLevel, "pulling image", [("stepName", Value.str "build")], 0⟩).runtimePanic = none ∧
    (demoHook.Fire testEnv demoHeap
      ⟨DebugLevel, "pulling image", [("stepName", Value.str "build")], 0⟩).err = none ∧
    (demoHook.Fire testEnv demoHeap
      ⟨DebugLevel, "pulling image", [("stepName", Value.str "build")], 0⟩).sent = [] ∧
    (demoHook.Fire testEnv demoHeap ⟨WarnLevel, "disk low", [], 0⟩).runtimePanic = none ∧
    ∃ d, (demoHook.Fire testEnv demoHeap ⟨WarnLevel, "disk low", [], 0⟩).sent = [d] ∧
      d.Body = "disk low" :=
  ⟨by decide, Or.inr (Or.inl rfl), by decide, by decide, rfl, ⟨'d', by decide, by decide⟩,
   Fire_threshold testEnv demoHook demoHeap
     ⟨DebugLevel, "pulling image", [("stepName", Value.str "build")], 0⟩
     ⟨WarnLevel, "disk low", [], 0⟩
     (by decide) (Or.inr (Or.inl rfl)) (by decide) (by decide) rfl
     ⟨'d', by decide, by decide⟩⟩

/-- C4: a record whose message is empty or consists of white space only makes
    `Fire` return `nil` without a call of `client.Send` and without a run-time
    panic, at every level and with any data; and every event that `Fire` hands
    to `client.Send` has the message of the record as its body, which is not
    empty after trimming. -/
theorem Fire_blank_message (env : Env) (ansHook : ANSHook) (hp : Heap) (blank entry : Entry)
    (hblank : ∀ c ∈ blank.Message.data, isSpace c = true) :
    (ansHook.Fire env hp blank).runtimePanic = none ∧
    (ansHook.Fire env hp blank).err = none ∧ (ansHook.Fire env hp blank).sent = [] ∧
    ∀ d ∈ (ansHook.Fire env hp entry).sent,
      d.Body = entry.Message ∧ (TrimSpace d.Body.data).length ≠ 0 := by
  have hb := (blankMessage_iff blank).mpr hblank
  refine ⟨?_, ?_, ?_, ?_⟩
  · rw [Fire_runtimePanic_eq]
    simp [hb]
  · rw [Fire_err]
    simp [hb]
  · rw [Fire_sent]
    simp [hb]
  · intro d hd
    obtain ⟨hnb, _, _, hd1⟩ := Fire_sent_mem env ansHook hp entry d hd
    subst hd1
    refine ⟨rfl, ?_⟩
    simpa [blankMessage, sentEvent] using hnb

/-- The theorem of C4 at a fatal-level record with a field `error` and a
    message of blanks and a tabulator. -/
theorem Fire_blank_message_witness :
    (∀ c ∈ "  \t ".data, isSpace c = true) ∧
    (demoHook.Fire testEnv demoHeap
      ⟨FatalLevel, "  \t ", [("error", Value.str "EOF")], 0⟩).runtimePanic = none ∧
    (demoHook.Fire testEnv demoHeap
      ⟨FatalLevel, "  \t ", [("error", Value.str "EOF")], 0⟩).err = none ∧
    (demoHook.Fire testEnv demoHeap
      ⟨FatalLevel, "  \t ", [("error", Value.str "EOF")], 0⟩).sent = [] ∧
    ∀ d ∈ (demoHook.Fire testEnv demoHeap ⟨WarnLevel, "disk low", [], 0⟩).sent,
      d.Body = "disk low" ∧ (TrimSpace d.Body.data).length ≠ 0 :=
  ⟨by decide,
   Fire_blank_message testEnv demoHook demoHeap
     ⟨FatalLevel, "  \t ", [("error", Value.str "EOF")], 0⟩ ⟨WarnLevel, "disk low", [], 0⟩
     (by decide)⟩

/-! ## The prototype and the tags of a sent event -/

theorem TagMap.get_eq_none_iff (m : TagMap) (k : String) :
    TagMap.get m k = none ↔ ∀ kv ∈ m, kv.1 ≠ k := by
  induction m with
  | nil => simp [TagMap.get]
  | cons kv m ih =>
    obtain ⟨k1, v⟩ := kv
    by_cases hk : k = k1
    · simp [TagMap.get, hk]
    · have hk2 : ¬ k1 = k := fun e => hk e.symm
      simp [TagMap.get, hk, hk2, ih]

theorem TagMap.get_append (m1 m2 : TagMap) (k : String) :
    TagMap.get (m1 ++ m2) k =
      match TagMap.get m1 k with
      | some v => some v
      | none => TagMap.get m2 k := by
  induction m1 with
  | nil => simp [TagMap.get]
  | cons kv m ih =>
    obtain ⟨k1, v⟩ := kv
    by_cases hk : k = k1
    · simp [TagMap.get, hk]
    · simp [TagMap.get, hk, ih]

theorem TagMap.get_reverse_of_none (m : TagMap) (k : String) (h : TagMap.get m k = none) :
    TagMap.get m.reverse k = none := by
  rw [TagMap.get_eq_none_iff] at *
  intro kv hkv
  exact h kv (List.mem_reverse.mp hkv)

theorem TagMap.get_reverse (m : TagMap) (k : String) (hn : (m.map Prod.fst).Nodup) :
    TagMap.get m.reverse k = TagMap.get m k := by
  induction m with
  | nil => rfl
  | cons kv m ih =>
    obtain ⟨k1, v⟩ := kv
    rw [List.map_cons, List.nodup_cons] at hn
    rw [List.reverse_cons, TagMap.get_append, ih hn.2]
    by_cases hk : k = k1
    · have hnone : TagMap.get m k = none := by
        rw [TagMap.get_eq_none_iff]
        intro kv hkv hkk
        apply hn.1
        have hmem : kv.1 ∈ m.map Prod.fst := List.mem_map_of_mem Prod.fst hkv
        rw [hkk, hk] at hmem
        exact hmem
      rw [hnone]
      simp [TagMap.get, hk]
    · cases hg : TagMap.get m k <;> simp [TagMap.get, hk, hg]

theorem TagMap.get_perm (m1 m2 : TagMap) (k : String) (hperm : m1.Perm m2)
    (hn : (m1.map Prod.fst).Nodup) : TagMap.get m1 k = TagMap.get m2 k := by
  induction hperm with
  | nil => rfl
  | cons x _ ih =>
    obtain ⟨k1, v⟩ := x
    rw [List.map_cons, List.nodup_cons] at hn
    simp only [TagMap.get, ih hn.2]
  | swap x y l =>
    obtain ⟨k1, v1⟩ := x
    obtain ⟨k2, v2⟩ := y
    simp only [List.map_cons, List.nodup_cons, List.mem_cons] at hn
    have hne : k2 ≠ k1 := fun e => hn.1 (Or.inl e)
    simp only [TagMap.get]
    by_cases h1 : k = k1
    · have h2 : ¬ k = k2 := fun e => hne (e.symm.trans h1)
      simp [h1, hne.symm]
    · simp [h1]
  | trans h12 _ ih1 ih2 =>
    rw [ih1 hn, ih2 ((h12.map Prod.fst).nodup_iff.mp hn)]

/-- The loop over the data of a record does not depend on the order in which
    `range` visits the bindings of the map: the level after the loop and every
    read of the tags after the loop are the same for two orders. -/
theorem rangeData_order (cs : List TagMap) (m data1 data2 : TagMap) (l : Level)
    (hperm : data1.Perm data2) (hn : (data1.map Prod.fst).Nodup) :
    (rangeData cs.length l ⟨cs ++ [m]⟩ data1).1 = (rangeData cs.length l ⟨cs ++ [m]⟩ data2).1 ∧
    ∀ k, TagMap.get ((rangeData cs.length l ⟨cs ++ [m]⟩ data1).2.read cs.length) k
      = TagMap.get ((rangeData cs.length l ⟨cs ++ [m]⟩ data2).2.read cs.length) k := by
  have hn2 : (data2.map Prod.fst).Nodup := (hperm.map Prod.fst).nodup_iff.mp hn
  refine ⟨?_, ?_⟩
  · have hany : data1.any (fun kv => decide (kv.1 = "error"))
        = data2.any (fun kv => decide (kv.1 = "error")) := by
      rw [Bool.eq_iff_iff, List.any_eq_true, List.any_eq_true]
      exact ⟨fun ⟨x, hx, hx2⟩ => ⟨x, hperm.mem_iff.mp hx, hx2⟩,
        fun ⟨x, hx, hx2⟩ => ⟨x, hperm.mem_iff.mpr hx, hx2⟩⟩
    rw [rangeData_level, rangeData_level, hany]
  · intro k
    rw [rangeData_fresh, rangeData_fresh, Heap.read_fresh, Heap.read_fresh,
      TagMap.get_append, TagMap.get_append, TagMap.get_reverse _ _ hn,
      TagMap.get_reverse _ _ hn2, TagMap.get_perm _ _ k hperm hn]

theorem Event.content_of_lt (e : Event) (hp : Heap) (ext : List TagMap)
    (h : e.Tags < hp.cells.length) :
    Event.content ⟨hp.cells ++ ext⟩ e = Event.content hp e := by
  simp only [Event.content, Heap.read_of_lt hp.cells ext e.Tags h]

theorem Fire_content (env : Env) (ansHook : ANSHook) (hp : Heap) (entry : Entry)
    (e : Event) (h : e.Tags < hp.cells.length) :
    e.content (ansHook.Fire env hp entry).heap = e.content hp := by
  obtain ⟨ext, hext⟩ := Fire_heap env ansHook hp entry
  rw [hext, Event.content_of_lt e hp ext h]

/-- C5: `Fire` leaves the prototype of the hook as it was: the content of the
    event of the hook, the bindings of its tags map included, is the same
    after a call as before; and an event that a second call sends holds no
    key that is neither a key of the prototype nor a key of the data of the
    second record nor `logLevel`, whatever the data of the first record. -/
theorem Fire_keeps_prototype (env : Env) (ansHook : ANSHook) (hp : Heap)
    (first second : Entry) (hvalid : ansHook.event.Tags < hp.cells.length) :
    ansHook.event.content (ansHook.Fire env hp first).heap = ansHook.event.content hp ∧
    ∀ d ∈ (ansHook.Fire env (ansHook.Fire env hp first).heap second).sent, ∀ k,
      k ≠ "logLevel" → TagMap.get second.Data k = none →
      TagMap.get (hp.read ansHook.event.Tags) k = none → TagMap.get d.Tags k = none := by
  have hc := Fire_content env ansHook hp first ansHook.event hvalid
  refine ⟨hc, ?_⟩
  intro d hd k hk hdata hproto
  obtain ⟨_, _, _, hd1⟩ := Fire_sent_mem env ansHook _ second d hd
  rw [hc] at hd1
  subst hd1
  simp only [sentEvent, TagMap.get, hk, if_false, Event.content]
  rw [TagMap.get_append, TagMap.get_reverse_of_none _ _ hdata]
  exact hproto

/-- The theorem of C5 at two records, the first with a field `user`. -/
theorem Fire_keeps_prototype_witness :
    demoHook.event.Tags < demoHeap.cells.length ∧
    demoHook.event.content (demoHook.Fire testEnv demoHeap
      ⟨ErrorLevel, "push failed", [("user", Value.str "alice")], 0⟩).heap
      = demoHook.event.content demoHeap ∧
    ∀ d ∈ (demoHook.Fire testEnv (demoHook.Fire testEnv demoHeap
        ⟨ErrorLevel, "push failed", [("user", Value.str "alice")], 0⟩).heap
        ⟨WarnLevel, "disk low", [("stepName", Value.str "build")], 1⟩).sent, ∀ k,
      k ≠ "logLevel" → TagMap.get [("stepName", Value.str "build")] k = none →
      TagMap.get (demoHeap.read demoHook.event.Tags) k = none → TagMap.get d.Tags k = none :=
  ⟨by decide,
   Fire_keeps_prototype testEnv demoHook demoHeap
     ⟨ErrorLevel, "push failed", [("user", Value.str "alice")], 0⟩
     ⟨WarnLevel, "disk low", [("stepName", Value.str "build")], 1⟩ (by decide)⟩

/-- C6: the tags of an event that `Fire` sends are the tags of the prototype,
    overlaid by the data of the record, overlaid by the binding of `logLevel`
    to the text of the level that `Fire` works with: a key reads as that text
    if it is `logLevel`, else as the field of the record if the record has it,
    else as the tag of the prototype, and is absent if the prototype has none.
    The keys of the data of a record are distinct, as in a Go map. -/
theorem Fire_tags_overlay (env : Env) (ansHook : ANSHook) (hp : Heap) (entry : Entry)
    (hkeys : (entry.Data.map Prod.fst).Nodup) :
    ∀ d ∈ (ansHook.Fire env hp entry).sent, ∀ k,
      TagMap.get d.Tags k =
        if k = "logLevel" then some (Value.str (levelString (effectiveLevel entry)))
        else
          match TagMap.get entry.Data k with
          | some v => some v
          | none => TagMap.get (hp.read ansHook.event.Tags) k := by
  intro d hd k
  obtain ⟨_, _, _, hd1⟩ := Fire_sent_mem env ansHook hp entry d hd
  subst hd1
  by_cases hk : k = "logLevel"
  · simp [sentEvent, TagMap.get, hk]
  · simp only [sentEvent, TagMap.get, hk, if_false, Event.content]
    rw [TagMap.get_append, TagMap.get_reverse _ _ hkeys]

/-- The theorem of C6 at a record that has its own field `logLevel` and a
    field that is also a tag of the prototype. -/
theorem Fire_tags_overlay_witness :
    ([("logLevel", Value.str "mine"), ("ans:correlationId", Value.num 7)].map Prod.fst).Nodup ∧
    ∀ d ∈ (demoHook.Fire testEnv demoHeap
        ⟨WarnLevel, "disk low",
         [("logLevel", Value.str "mine"), ("ans:correlationId", Value.num 7)], 0⟩).sent, ∀ k,
      TagMap.get d.Tags k =
        if k = "logLevel" then some (Value.str (levelString (effectiveLevel
          ⟨WarnLevel, "disk low",
           [("logLevel", Value.str "mine"), ("ans:correlationId", Value.num 7)], 0⟩)))
        else
          match TagMap.get
            [("logLevel", Value.str "mine"), ("ans:correlationId", Value.num 7)] k with
          | some v => some v
          | none => TagMap.get (demoHeap.read demoHook.event.Tags) k :=
  ⟨by decide,
   Fire_tags_overlay testEnv demoHook demoHeap
     ⟨WarnLevel, "disk low",
      [("logLevel", Value.str "mine"), ("ans:correlationId", Value.num 7)], 0⟩ (by decide)⟩

/-- C8: one call of `Fire` calls `client.Send` at most once; what `Fire`
    returns after a call of `client.Send` is what that call returned, the
    error or `nil`, and the call has not ended in a run-time panic; the
    content of the prototype is the same after the call as before, and a later
    call of `Fire` sends, returns and ends as it would have without the
    earlier call. -/
theorem Fire_sends_once (env : Env) (ansHook : ANSHook) (hp : Heap) (entry later : Entry)
    (hvalid : ansHook.event.Tags < hp.cells.length) :
    (ansHook.Fire env hp entry).sent.length ≤ 1 ∧
    (∀ d ∈ (ansHook.Fire env hp entry).sent,
      (ansHook.Fire env hp entry).runtimePanic = none ∧
      (ansHook.Fire env hp entry).err = ansHook.client.Send d) ∧
    ansHook.event.content (ansHook.Fire env hp entry).heap = ansHook.event.content hp ∧
    (ansHook.Fire env (ansHook.Fire env hp entry).heap later).sent
      = (ansHook.Fire env hp later).sent ∧
    (ansHook.Fire env (ansHook.Fire env hp entry).heap later).err
      = (ansHook.Fire env hp later).err ∧
    (ansHook.Fire env (ansHook.Fire env hp entry).heap later).runtimePanic
      = (ansHook.Fire env hp later).runtimePanic := by
  have hc := Fire_content env ansHook hp entry ansHook.event hvalid
  have hread : (ansHook.Fire env hp entry).heap.read ansHook.event.Tags
      = hp.read ansHook.event.Tags := congrArg EventOf.Tags hc
  refine ⟨?_, ?_, hc, ?_, ?_, ?_⟩
  · rw [Fire_sent]
    split <;> simp
  · intro d hd
    refine ⟨Fire_runtimePanic_of_sent env ansHook hp entry d hd, ?_⟩
    obtain ⟨hb, hl, htags, hd1⟩ := Fire_sent_mem env ansHook hp entry d hd
    rw [Fire_err, hd1]
    simp [hb, hl, htags]
  · rw [Fire_sent, Fire_sent, hc, hread]
  · rw [Fire_err, Fire_err, hc, hread]
  · rw [Fire_runtimePanic_eq, Fire_runtimePanic_eq, hread]

/-- The theorem of C8 at a hook whose backend refuses every event. -/
theorem Fire_sends_once_witness :
    (⟨failingClient, demoHook.event⟩ : ANSHook).event.Tags < demoHeap.cells.length ∧
    ((⟨failingClient, demoHook.event⟩ : ANSHook).Fire testEnv demoHeap
      ⟨ErrorLevel, "push failed", [], 0⟩).sent.length ≤ 1 ∧
    (∀ d ∈ ((⟨failingClient, demoHook.event⟩ : ANSHook).Fire testEnv demoHeap
        ⟨ErrorLevel, "push failed", [], 0⟩).sent,
      ((⟨failingClient, demoHook.event⟩ : ANSHook).Fire testEnv demoHeap
        ⟨ErrorLevel, "push failed", [], 0⟩).runtimePanic = none ∧
      ((⟨failingClient, demoHook.event⟩ : ANSHook).Fire testEnv demoHeap
        ⟨ErrorLevel, "push failed", [], 0⟩).err = failingClient.Send d) ∧
    demoHook.event.content ((⟨failingClient, demoHook.event⟩ : ANSHook).Fire testEnv demoHeap
      ⟨ErrorLevel, "push failed", [], 0⟩).heap = demoHook.event.content demoHeap ∧
    ((⟨failingClient, demoHook.event⟩ : ANSHook).Fire testEnv
      ((⟨failingClient, demoHook.event⟩ : ANSHook).Fire testEnv demoHeap
        ⟨ErrorLevel, "push failed", [], 0⟩).heap ⟨WarnLevel, "disk low", [], 1⟩).sent
      = ((⟨failingClient, demoHook.event⟩ : ANSHook).Fire testEnv demoHeap
        ⟨WarnLevel, "disk low", [], 1⟩).sent ∧
    ((⟨failingClient, demoHook.event⟩ : ANSHook).Fire testEnv
      ((⟨failingClient, demoHook.event⟩ : ANSHook).Fire testEnv demoHeap
        ⟨ErrorLevel, "push failed", [], 0⟩).heap ⟨WarnLevel, "disk low", [], 1⟩).err
      = ((⟨failingClient, demoHook.event⟩ : ANSHook).Fire testEnv demoHeap
        ⟨WarnLevel, "disk low", [], 1⟩).err ∧
    ((⟨failingClient, demoHook.event⟩ : ANSHook).Fire testEnv
      ((⟨failingClient, demoHook.event⟩ : ANSHook).Fire testEnv demoHeap
        ⟨ErrorLevel, "push failed", [], 0⟩).heap ⟨WarnLevel, "disk low", [], 1⟩).runtimePanic
      = ((⟨failingClient, demoHook.event⟩ : ANSHook).Fire testEnv demoHeap
        ⟨WarnLevel, "disk low", [], 1⟩).runtimePanic :=
  ⟨by decide,
   Fire_sends_once testEnv ⟨failingClient, demoHook.event⟩ demoHeap
     ⟨ErrorLevel, "push failed", [], 0⟩ ⟨WarnLevel, "disk low", [], 1⟩ (by decide)⟩

/-! ## The construction of the hook -/

theorem MergeWithJSON_of_fails (hp : Heap) (event : Event) (b : Bytes) (h : mergeFails b) :
    ∃ err, Event.MergeWithJSON hp event b = (hp, event, some err) := by
  cases b with
  | empty => exact ⟨_, rfl⟩
  | garbage => exact ⟨_, rfl⟩
  | json d u => exact absurd rfl (h hp event)

theorem mergeFileTemplate_of_fails (env : Env) (hp : Heap) (event : Event)
    (config : Configuration) (h : templateFails env true config) :
    ∃ w, mergeFileTemplate env hp event config = (hp, event, w) := by
  obtain ⟨hlen, b, hread, hb⟩ := h
  obtain ⟨err, herr⟩ := MergeWithJSON_of_fails hp event b hb
  unfold mergeFileTemplate
  rw [if_pos hlen, hread]
  simp only [herr]
  exact ⟨_, rfl⟩

theorem mergeInlineTemplate_of_fails (env : Env) (hp : Heap) (event : Event)
    (config : Configuration) (h : templateFails env false config) :
    ∃ w, mergeInlineTemplate hp event config = (hp, event, w) := by
  obtain ⟨hlen, hb⟩ := h
  obtain ⟨err, herr⟩ := MergeWithJSON_of_fails hp event config.EventTemplate hb
  unfold mergeInlineTemplate
  rw [if_pos hlen]
  simp only [herr]
  exact ⟨_, rfl⟩

theorem NewANSHook_eq (env : Env) (hp : Heap) (config : Configuration) (correlationID : String)
    (key : ServiceKey) (hkey : env.UnmarshallServiceKeyJSON config.ServiceKey = Except.ok key)
    (hcheck : (clientOf env key).CheckCorrectSetup = none) :
    (NewANSHook env hp config correlationID).hook
      = Except.ok ⟨clientOf env key,
          (mergeInlineTemplate
            (mergeFileTemplate env
              ⟨hp.cells ++ [[("ans:correlationId", Value.str correlationID),
                ("ans:sourceEventId", Value.str correlationID)]]⟩
              ⟨"Piper", 0, "", "", "", hp.cells.length, some ⟨"Pipeline", "Pipeline"⟩⟩ config).1
            (mergeFileTemplate env
              ⟨hp.cells ++ [[("ans:correlationId", Value.str correlationID),
                ("ans:sourceEventId", Value.str correlationID)]]⟩
              ⟨"Piper", 0, "", "", "", hp.cells.length, some ⟨"Pipeline", "Pipeline"⟩⟩ config).2.1
            config).2.1⟩ ∧
    (NewANSHook env hp config correlationID).heap
      = (mergeInlineTemplate
            (mergeFileTemplate env
              ⟨hp.cells ++ [[("ans:correlationId", Value.str correlationID),
                ("ans:sourceEventId", Value.str correlationID)]]⟩
              ⟨"Piper", 0, "", "", "", hp.cells.length, some ⟨"Pipeline", "Pipeline"⟩⟩ config).1
            (mergeFileTemplate env
              ⟨hp.cells ++ [[("ans:correlationId", Value.str correlationID),
                ("ans:sourceEventId", Value.str correlationID)]]⟩
              ⟨"Piper", 0, "", "", "", hp.cells.length, some ⟨"Pipeline", "Pipeline"⟩⟩ config).2.1
            config).1 := by
  unfold clientOf at hcheck
  unfold NewANSHook
  simp only [hkey, Heap.alloc, hcheck, clientOf]
  exact ⟨trivial, trivial⟩

theorem NewANSHook_plain (env : Env) (hp : Heap) (config : Configuration)
    (correlationID : String) (key : ServiceKey)
    (hkey : env.UnmarshallServiceKeyJSON config.ServiceKey = Except.ok key)
    (hcheck : (clientOf env key).CheckCorrectSetup = none)
    (hfile : config.EventTemplateFilePath = "") (hinline : config.EventTemplate = Bytes.empty) :
    (NewANSHook env hp config correlationID).hook
      = Except.ok ⟨clientOf env key,
          ⟨"Piper", 0, "", "", "", hp.cells.length, some ⟨"Pipeline", "Pipeline"⟩⟩⟩ ∧
    (NewANSHook env hp config correlationID).heap
      = ⟨hp.cells ++ [[("ans:correlationId", Value.str correlationID),
          ("ans:sourceEventId", Value.str correlationID)]]⟩ := by
  have h := NewANSHook_eq env hp config correlationID key hkey hcheck
  have hf : ∀ (hp1 : Heap) (ev : Event), mergeFileTemplate env hp1 ev config = (hp1, ev, []) := by
    intro hp1 ev
    simp [mergeFileTemplate, hfile]
  have hi : ∀ (hp1 : Heap) (ev : Event), mergeInlineTemplate hp1 ev config = (hp1, ev, []) := by
    intro hp1 ev
    simp [mergeInlineTemplate, hinline, Bytes.nonEmpty]
  rw [hf, hi] at h
  exact h

theorem Heap.store_length (hp : Heap) (a : Nat) (k : String) (v : Value) :
    (hp.store a k v).cells.length = hp.cells.length := by
  simp [Heap.store]

theorem Heap.storeAll_length (hp : Heap) (a : Nat) (m : TagMap) :
    (hp.storeAll a m).cells.length = hp.cells.length := by
  induction m with
  | nil => rfl
  | cons kv m ih =>
    have h : hp.storeAll a (kv :: m) = (hp.storeAll a m).store a kv.1 kv.2 := rfl
    rw [h, Heap.store_length, ih]

theorem Heap.read_store_self (hp : Heap) (a : Nat) (k : String) (v : Value)
    (h : a < hp.cells.length) : (hp.store a k v).read a = (k, v) :: hp.read a := by
  simp [Heap.store, Heap.read_eq, List.getElem?_set, h]

theorem Heap.read_storeAll_self (hp : Heap) (a : Nat) (m : TagMap)
    (h : a < hp.cells.length) : (hp.storeAll a m).read a = m ++ hp.read a := by
  induction m with
  | nil => rfl
  | cons kv m ih =>
    have hs : hp.storeAll a (kv :: m) = (hp.storeAll a m).store a kv.1 kv.2 := rfl
    rw [hs, Heap.read_store_self _ _ _ _ (by rw [Heap.storeAll_length]; exact h), ih]
    rfl

theorem MergeWithJSON_frame (hp : Heap) (event : Event) (b : Bytes)
    (h : event.Tags < hp.cells.length) :
    (Event.MergeWithJSON hp event b).2.1.Tags = event.Tags ∧
    (Event.MergeWithJSON hp event b).1.cells.length = hp.cells.length ∧
    (hp.read event.Tags ≠ [] → (Event.MergeWithJSON hp event b).1.read event.Tags ≠ []) := by
  have ha : hp.allocated event.Tags = true := by simp [Heap.allocated, h]
  cases b with
  | empty => exact ⟨rfl, rfl, fun hne => hne⟩
  | garbage => exact ⟨rfl, rfl, fun hne => hne⟩
  | json d u =>
    simp only [Event.MergeWithJSON, mergeTags, ha, if_true]
    refine ⟨trivial, Heap.storeAll_length _ _ _, ?_⟩
    intro hne
    rw [Heap.read_storeAll_self _ _ _ h]
    intro hnil
    exact hne (List.append_eq_nil.mp hnil).2

theorem mergeFileTemplate_frame (env : Env) (hp : Heap) (event : Event)
    (config : Configuration) (h : event.Tags < hp.cells.length) :
    (mergeFileTemplate env hp event config).2.1.Tags = event.Tags ∧
    (mergeFileTemplate env hp event config).1.cells.length = hp.cells.length ∧
    (hp.read event.Tags ≠ [] →
      (mergeFileTemplate env hp event config).1.read event.Tags ≠ []) := by
  have hm := fun b => MergeWithJSON_frame hp event b h
  unfold mergeFileTemplate
  split
  · split
    · exact ⟨rfl, rfl, fun hne => hne⟩
    · rename_i b _
      have hb := hm b
      split <;> simp_all
  · exact ⟨rfl, rfl, fun hne => hne⟩

theorem mergeInlineTemplate_frame (hp : Heap) (event : Event) (config : Configuration)
    (h : event.Tags < hp.cells.length) :
    (mergeInlineTemplate hp event config).2.1.Tags = event.Tags ∧
    (mergeInlineTemplate hp event config).1.cells.length = hp.cells.length ∧
    (hp.read event.Tags ≠ [] →
      (mergeInlineTemplate hp event config).1.read event.Tags ≠ []) := by
  have hb := MergeWithJSON_frame hp event config.EventTemplate h
  unfold mergeInlineTemplate
  split
  · split <;> simp_all
  · exact ⟨rfl, rfl, fun hne => hne⟩

/-- The tags map of the prototype of a hook that `NewANSHook` returns is
    allocated in the heap that `NewANSHook` returns, and it has a tag. -/
theorem NewANSHook_has_tags (env : Env) (hp : Heap) (config : Configuration)
    (correlationID : String) (h : ANSHook)
    (hok : (NewANSHook env hp config correlationID).hook = Except.ok h) :
    h.event.Tags < (NewANSHook env hp config correlationID).heap.cells.length ∧
    (NewANSHook env hp config correlationID).heap.read h.event.Tags ≠ [] := by
  cases hkey : env.UnmarshallServiceKeyJSON config.ServiceKey with
  | error e =>
    simp [NewANSHook, hkey] at hok
  | ok key =>
    cases hcheck : (clientOf env key).CheckCorrectSetup with
    | some e =>
      unfold clientOf at hcheck
      simp [NewANSHook, hkey, hcheck] at hok
    | none =>
      obtain ⟨h1, h2⟩ := NewANSHook_eq env hp config correlationID key hkey hcheck
      rw [h1] at hok
      injection hok with hok
      rw [h2, ← hok]
      have h0 : (⟨"Piper", 0, "", "", "", hp.cells.length, some ⟨"Pipeline", "Pipeline"⟩⟩ :
          Event).Tags < (⟨hp.cells ++ [[("ans:correlationId", Value.str correlationID),
            ("ans:sourceEventId", Value.str correlationID)]]⟩ : Heap).cells.length := by
        simp
      have hr0 : (⟨hp.cells ++ [[("ans:correlationId", Value.str correlationID),
            ("ans:sourceEventId", Value.str correlationID)]]⟩ : Heap).read
          (⟨"Piper", 0, "", "", "", hp.cells.length, some ⟨"Pipeline", "Pipeline"⟩⟩ :
            Event).Tags ≠ [] := by
        rw [Heap.read_fresh]
        simp
      obtain ⟨f1, f2, f3⟩ := mergeFileTemplate_frame env _ _ config h0
      have h1a : (mergeFileTemplate env
          ⟨hp.cells ++ [[("ans:correlationId", Value.str correlationID),
            ("ans:sourceEventId", Value.str correlationID)]]⟩
          ⟨"Piper", 0, "", "", "", hp.cells.length, some ⟨"Pipeline", "Pipeline"⟩⟩
          config).2.1.Tags < (mergeFileTemplate env
          ⟨hp.cells ++ [[("ans:correlationId", Value.str correlationID),
            ("ans:sourceEventId", Value.str correlationID)]]⟩
          ⟨"Piper", 0, "", "", "", hp.cells.length, some ⟨"Pipeline", "Pipeline"⟩⟩
          config).1.cells.length := by
        rw [f1, f2]
        exact h0
      obtain ⟨g1, g2, g3⟩ := mergeInlineTemplate_frame _ _ config h1a
      refine ⟨?_, ?_⟩
      · rw [g1, g2]
        exact h1a
      · rw [g1]
        apply g3
        rw [f1]
        exact f3 hr0

/-- The tags map of the prototype of a hook that `NewANSHook` returns is
    allocated in the heap that `NewANSHook` returns. -/
theorem NewANSHook_valid (env : Env) (hp : Heap) (config : Configuration)
    (correlationID : String) (h : ANSHook)
    (hok : (NewANSHook env hp config correlationID).hook = Except.ok h) :
    h.event.Tags < (NewANSHook env hp config correlationID).heap.cells.length :=
  (NewANSHook_has_tags env hp config correlationID h hok).1

/-- C7, evaluated on the code: the hook built for correlation id `abc-123`
    without templates, fired with a warning-level record whose message
    `fatal error: disk low` is not blank and whose data is the step name
    `build`, sends one event whose tag `logLevel` is `fatal`, not `warning`. -/
theorem Fire_warning_with_fatal_prefix :
    ∃ h, (NewANSHook testEnv emptyHeap plainConfig "abc-123").hook = Except.ok h ∧
      (h.Fire testEnv (NewANSHook testEnv emptyHeap plainConfig "abc-123").heap
        ⟨WarnLevel, "fatal error: disk low", [("stepName", Value.str "build")], 0⟩).sent.map
          (fun d => (TagMap.get d.Tags "ans:correlationId", d.Subject, d.Body,
            TagMap.get d.Tags "logLevel"))
        = [(some (Value.str "abc-123"), "build", "fatal error: disk low",
            some (Value.str "fatal"))] :=
  ⟨_, rfl, by decide⟩

/-- C7 as amended: for every correlation id `c`, the hook that `NewANSHook`
    builds without templates from a valid service key with a passing setup
    check, fired with a warning-level record whose message `m` is not blank
    and does not begin with `fatal error` and whose data is the step name `s`,
    calls `client.Send` exactly once, with an event whose tag
    `ans:correlationId` is `c`, subject `s`, body `m` and tag `logLevel`
    `warning`. -/
theorem NewANSHook_Fire_warning (env : Env) (hp : Heap) (config : Configuration)
    (key : ServiceKey) (c m s : String) (time : Int)
    (hkey : env.UnmarshallServiceKeyJSON config.ServiceKey = Except.ok key)
    (hcheck : (clientOf env key).CheckCorrectSetup = none)
    (hfile : config.EventTemplateFilePath = "") (hinline : config.EventTemplate = Bytes.empty)
    (hmsg : ∃ x ∈ m.data, isSpace x = false)
    (hpre : startsWith m "fatal error" = false) :
    ∃ h d, (NewANSHook env hp config c).hook = Except.ok h ∧
      (h.Fire env (NewANSHook env hp config c).heap
        ⟨WarnLevel, m, [("stepName", Value.str s)], time⟩).sent = [d] ∧
      TagMap.get d.Tags "ans:correlationId" = some (Value.str c) ∧
      d.Subject = s ∧ d.Body = m ∧
      TagMap.get d.Tags "logLevel" = some (Value.str "warning") := by
  obtain ⟨h1, h2⟩ := NewANSHook_plain env hp config c key hkey hcheck hfile hinline
  have hb : blankMessage ⟨WarnLevel, m, [("stepName", Value.str s)], time⟩ = false :=
    blankMessage_false _ hmsg
  have hl : effectiveLevel ⟨WarnLevel, m, [("stepName", Value.str s)], time⟩ = WarnLevel := by
    rw [effectiveLevel_eq]
    simp [hasErrorField, hpre]
  refine ⟨_, sentEvent env
    (Event.content (NewANSHook env hp config c).heap
      ⟨"Piper", 0, "", "", "", hp.cells.length, some ⟨"Pipeline", "Pipeline"⟩⟩)
    ⟨WarnLevel, m, [("stepName", Value.str s)], time⟩, h1, ?_, ?_, ?_, ?_, ?_⟩
  · have htags : (NewANSHook env hp config c).heap.read hp.cells.length ≠ [] := by
      rw [h2, Heap.read_fresh]
      simp
    rw [Fire_sent, hb, hl]
    simp [WarnLevel, htags]
  · rw [h2]
    simp [sentEvent, Event.content, Heap.read_fresh, TagMap.get]
  · simp [sentEvent, Event.content, Sprint, TagMap.get]
  · simp [sentEvent]
  · simp only [sentEvent, TagMap.get_head, hl]
    rfl

/-- The theorem of C7 at the scenario of the specification: correlation id
    `abc-123`, message `disk low`, step name `build`. -/
theorem NewANSHook_Fire_warning_witness :
    testEnv.UnmarshallServiceKeyJSON plainConfig.ServiceKey
      = Except.ok ⟨"https://ans", "id", "secret", "https://oauth"⟩ ∧
    (clientOf testEnv ⟨"https://ans", "id", "secret", "https://oauth"⟩).CheckCorrectSetup = none ∧
    plainConfig.EventTemplateFilePath = "" ∧ plainConfig.EventTemplate = Bytes.empty ∧
    (∃ x ∈ "disk low".data, isSpace x = false) ∧
    startsWith "disk low" "fatal error" = false ∧
    ∃ h d, (NewANSHook testEnv emptyHeap plainConfig "abc-123").hook = Except.ok h ∧
      (h.Fire testEnv (NewANSHook testEnv emptyHeap plainConfig "abc-123").heap
        ⟨WarnLevel, "disk low", [("stepName", Value.str "build")], 0⟩).sent = [d] ∧
      TagMap.get d.Tags "ans:correlationId" = some (Value.str "abc-123") ∧
      d.Subject = "build" ∧ d.Body = "disk low" ∧
      TagMap.get d.Tags "logLevel" = some (Value.str "warning") :=
  ⟨rfl, rfl, rfl, rfl, ⟨'d', by decide, by decide⟩, by decide,
   NewANSHook_Fire_warning testEnv emptyHeap plainConfig
     ⟨"https://ans", "id", "secret", "https://oauth"⟩ "abc-123" "disk low" "build" 0
     rfl rfl rfl rfl ⟨'d', by decide, by decide⟩ (by decide)⟩

theorem mergeInlineTemplate_dropFile (hp : Heap) (event : Event) (config : Configuration) :
    (mergeInlineTemplate hp event (dropTemplate true config)).1
        = (mergeInlineTemplate hp event config).1 ∧
    (mergeInlineTemplate hp event (dropTemplate true config)).2.1
        = (mergeInlineTemplate hp event config).2.1 := by
  simp [mergeInlineTemplate, dropTemplate]

theorem mergeFileTemplate_dropInline (env : Env) (hp : Heap) (event : Event)
    (config : Configuration) :
    mergeFileTemplate env hp event (dropTemplate false config)
      = mergeFileTemplate env hp event config := by
  simp [mergeFileTemplate, dropTemplate]

theorem mergeFileTemplate_dropFile (env : Env) (hp : Heap) (event : Event)
    (config : Configuration) :
    mergeFileTemplate env hp event (dropTemplate true config) = (hp, event, []) := by
  simp [mergeFileTemplate, dropTemplate]

theorem mergeInlineTemplate_dropInline (hp : Heap) (event : Event) (config : Configuration) :
    mergeInlineTemplate hp event (dropTemplate false config) = (hp, event, []) := by
  simp [mergeInlineTemplate, dropTemplate, Bytes.nonEmpty]

theorem dropTemplate_ServiceKey (file : Bool) (config : Configuration) :
    (dropTemplate file config).ServiceKey = config.ServiceKey := by
  cases file <;> rfl

/-- C9: with a valid service key and a passing setup check, a template, file
    or inline, that fails to merge does not make `NewANSHook` return an error,
    and the content of the prototype of the returned hook (event type,
    subject, resource, tags) is what it is when that template is not given
    at all, that is, what it was before the failed merge. -/
theorem NewANSHook_failed_template (env : Env) (hp : Heap) (config : Configuration)
    (correlationID : String) (key : ServiceKey) (file : Bool)
    (hkey : env.UnmarshallServiceKeyJSON config.ServiceKey = Except.ok key)
    (hcheck : (clientOf env key).CheckCorrectSetup = none)
    (hfail : templateFails env file config) :
    ∃ h h0, (NewANSHook env hp config correlationID).hook = Except.ok h ∧
      (NewANSHook env hp (dropTemplate file config) correlationID).hook = Except.ok h0 ∧
      h.event.content (NewANSHook env hp config correlationID).heap
        = h0.event.content (NewANSHook env hp (dropTemplate file config) correlationID).heap := by
  have hkey0 : env.UnmarshallServiceKeyJSON (dropTemplate file config).ServiceKey
      = Except.ok key := by
    rw [dropTemplate_ServiceKey, hkey]
  obtain ⟨h1, h2⟩ := NewANSHook_eq env hp config correlationID key hkey hcheck
  obtain ⟨h3, h4⟩ :=
    NewANSHook_eq env hp (dropTemplate file config) correlationID key hkey0 hcheck
  refine ⟨_, _, h1, h3, ?_⟩
  rw [h2, h4]
  cases file with
  | true =>
    obtain ⟨w, hw⟩ := mergeFileTemplate_of_fails env
      ⟨hp.cells ++ [[("ans:correlationId", Value.str correlationID),
        ("ans:sourceEventId", Value.str correlationID)]]⟩
      ⟨"Piper", 0, "", "", "", hp.cells.length, some ⟨"Pipeline", "Pipeline"⟩⟩ config hfail
    rw [hw, mergeFileTemplate_dropFile]
    simp only [(mergeInlineTemplate_dropFile _ _ config).1,
      (mergeInlineTemplate_dropFile _ _ config).2]
  | false =>
    rw [mergeFileTemplate_dropInline]
    obtain ⟨w, hw⟩ := mergeInlineTemplate_of_fails env
      (mergeFileTemplate env
        ⟨hp.cells ++ [[("ans:correlationId", Value.str correlationID),
          ("ans:sourceEventId", Value.str correlationID)]]⟩
        ⟨"Piper", 0, "", "", "", hp.cells.length, some ⟨"Pipeline", "Pipeline"⟩⟩ config).1
      (mergeFileTemplate env
        ⟨hp.cells ++ [[("ans:correlationId", Value.str correlationID),
          ("ans:sourceEventId", Value.str correlationID)]]⟩
        ⟨"Piper", 0, "", "", "", hp.cells.length, some ⟨"Pipeline", "Pipeline"⟩⟩ config).2.1
      config hfail
    rw [hw, mergeInlineTemplate_dropInline]

/-- The theorem of C9 at a configuration whose template file holds bytes that
    are not a JSON document. -/
theorem NewANSHook_failed_template_witness :
    garbageFileEnv.UnmarshallServiceKeyJSON "service-key"
      = Except.ok ⟨"https://ans", "id", "secret", "https://oauth"⟩ ∧
    (clientOf garbageFileEnv ⟨"https://ans", "id", "secret", "https://oauth"⟩).CheckCorrectSetup
      = none ∧
    templateFails garbageFileEnv true ⟨"service-key", "template.json", Bytes.empty⟩ ∧
    ∃ h h0, (NewANSHook garbageFileEnv emptyHeap ⟨"service-key", "template.json", Bytes.empty⟩
        "abc-123").hook = Except.ok h ∧
      (NewANSHook garbageFileEnv emptyHeap
        (dropTemplate true ⟨"service-key", "template.json", Bytes.empty⟩) "abc-123").hook
        = Except.ok h0 ∧
      h.event.content (NewANSHook garbageFileEnv emptyHeap
          ⟨"service-key", "template.json", Bytes.empty⟩ "abc-123").heap
        = h0.event.content (NewANSHook garbageFileEnv emptyHeap
          (dropTemplate true ⟨"service-key", "template.json", Bytes.empty⟩) "abc-123").heap :=
  ⟨rfl, rfl,
   ⟨by decide, Bytes.garbage, rfl, fun _ _ => by simp [Event.MergeWithJSON]⟩,
   NewANSHook_failed_template garbageFileEnv emptyHeap
     ⟨"service-key", "template.json", Bytes.empty⟩ "abc-123"
     ⟨"https://ans", "id", "secret", "https://oauth"⟩ true rfl rfl
     ⟨by decide, Bytes.garbage, rfl, fun _ _ => by simp [Event.MergeWithJSON]⟩⟩

/-! ## Escalation and the level of the record -/

/-- C10, evaluated on the code: a panic-level record whose message begins with
    `fatal error` is sent with the level fatal, which is less severe than
    panic; and the fatal-level record of a failed step, which carries a field
    `error`, is sent with the level error, which is less severe than fatal. -/
theorem Fire_lowers_level :
    (¬ effectiveLevel ⟨PanicLevel, "fatal error: stack overflow", [], 0⟩ ≤ PanicLevel ∧
      summary (demoHook.Fire testEnv demoHeap
        ⟨PanicLevel, "fatal error: stack overflow", [], 0⟩).sent
        = [(some (Value.str "fatal"), "FATAL", "<nil>", "fatal error: stack overflow")]) ∧
    (¬ effectiveLevel (stepFailedEntry [] "exit status 1" 0) ≤ FatalLevel ∧
      (stepFailedEntry [] "exit status 1" 0).Level = FatalLevel ∧
      summary (demoHook.Fire testEnv demoHeap (stepFailedEntry [] "exit status 1" 0)).sent
        = [(some (Value.str "error"), "ERROR", "<nil>", "step execution failed")]) :=
  ⟨⟨by decide, by decide⟩, ⟨by decide, rfl, by decide⟩⟩

/-- C10 as amended: for a record whose level is error or less severe, and for
    a record without a field `error` whose level is fatal or whose message
    does not begin with `fatal error`, the level that `Fire` works with is at
    least as severe as the level of the record; `Fire` sends nothing when
    that level is below warning, and an event that it sends carries that
    level in its tag `logLevel` and in its severity. -/
theorem Fire_keeps_level (env : Env) (ansHook : ANSHook) (hp : Heap) (entry : Entry)
    (h : ErrorLevel ≤ entry.Level ∨
      (TagMap.get entry.Data "error" = none ∧
        (FatalLevel ≤ entry.Level ∨ startsWith entry.Message "fatal error" = false))) :
    effectiveLevel entry ≤ entry.Level ∧
    (effectiveLevel entry > 3 → (ansHook.Fire env hp entry).sent = []) ∧
    ∀ d ∈ (ansHook.Fire env hp entry).sent,
      TagMap.get d.Tags "logLevel" = some (Value.str (levelString (effectiveLevel entry))) ∧
      d.Severity = env.severity (effectiveLevel entry) := by
  refine ⟨?_, ?_, ?_⟩
  · rw [effectiveLevel_eq]
    have hcases : ∀ (e p : Bool) (l : Nat),
        (2 ≤ l ∨ (e = false ∧ (1 ≤ l ∨ p = false))) →
        (if e = true then 2 else if p = true then 1 else l) ≤ l := by
      intro e p l hl
      cases e <;> cases p <;> simp at hl ⊢ <;> omega
    apply hcases
    rcases h with h | ⟨hnoerr, h⟩
    · exact Or.inl h
    · exact Or.inr ⟨hasErrorField_of_get entry hnoerr, h⟩
  · intro hl
    rw [Fire_sent]
    simp [hl]
  · intro d hd
    obtain ⟨_, _, _, hd1⟩ := Fire_sent_mem env ansHook hp entry d hd
    subst hd1
    exact ⟨by simp only [sentEvent, TagMap.get_head], by simp only [sentEvent]⟩

/-- The theorem of C10 as amended at an info-level record with a field
    `error`. -/
theorem Fire_keeps_level_witness :
    (ErrorLevel ≤ (⟨InfoLevel, "copy failed", [("error", Value.str "EOF")], 0⟩ : Entry).Level ∨
      (TagMap.get (⟨InfoLevel, "copy failed", [("error", Value.str "EOF")], 0⟩ : Entry).Data
          "error" = none ∧
        (FatalLevel ≤ (⟨InfoLevel, "copy failed", [("error", Value.str "EOF")], 0⟩ : Entry).Level ∨
          startsWith
            (⟨InfoLevel, "copy failed", [("error", Value.str "EOF")], 0⟩ : Entry).Message
            "fatal error" = false))) ∧
    effectiveLevel ⟨InfoLevel, "copy failed", [("error", Value.str "EOF")], 0⟩ ≤ InfoLevel ∧
    (effectiveLevel ⟨InfoLevel, "copy failed", [("error", Value.str "EOF")], 0⟩ > 3 →
      (demoHook.Fire testEnv demoHeap
        ⟨InfoLevel, "copy failed", [("error", Value.str "EOF")], 0⟩).sent = []) ∧
    ∀ d ∈ (demoHook.Fire testEnv demoHeap
        ⟨InfoLevel, "copy failed", [("error", Value.str "EOF")], 0⟩).sent,
      TagMap.get d.Tags "logLevel" = some (Value.str (levelString
        (effectiveLevel ⟨InfoLevel, "copy failed", [("error", Value.str "EOF")], 0⟩))) ∧
      d.Severity = testEnv.severity
        (effectiveLevel ⟨InfoLevel, "copy failed", [("error", Value.str "EOF")], 0⟩) :=
  ⟨Or.inl (by decide),
   Fire_keeps_level testEnv demoHook demoHeap
     ⟨InfoLevel, "copy failed", [("error", Value.str "EOF")], 0⟩ (Or.inl (by decide))⟩

end PiperLog
